import Mathlib

/-!
Verification of the skynet hypothesis-evaluation backend against its
specification.  The TypeScript services are shallowly embedded: database
repositories become explicit lists of records, TypeORM `update` becomes a
map over the list, and every `eventEmitter.emit` is collected into a list
of emitted payloads.  Decimal columns (`pValue`, `value`, prices, ...) are
modelled as rationals; the PostgreSQL driver surfaces them as strings, so
a present decimal is always truthy in the TypeScript code (hence the
`Number(...)` conversions throughout the services).
-/

namespace Skynet

/-- Status enum from `src/entities/hypothesis.entity.ts`. -/
inductive HypothesisStatus where
  | pending
  | running
  | completed
  | failed
deriving DecidableEq, Repr

/-- Test-type enum from `src/entities/hypothesis.entity.ts`. -/
inductive TestType where
  | correlation
  | grangerCausality
  | eventStudy
  | permutation
deriving DecidableEq, Repr

/-- The `Hypothesis` entity (`src/entities/hypothesis.entity.ts`).
`createdAt`/`testedAt` are epoch instants modelled as naturals; nullable
result columns are `Option`s. -/
structure Hypothesis where
  id : Nat
  hypothesis : String
  nullHypothesis : String
  eventType : String
  marketAsset : String
  testType : TestType
  lookbackDays : Nat
  status : HypothesisStatus
  pValue : Option ℚ
  hitRate : Option ℚ
  edge : Option ℚ
  sampleSize : Option Nat
  testResults : Option String
  errorMessage : Option String
  aiGenerated : Bool
  createdAt : Nat
  testedAt : Nat
deriving DecidableEq, Repr

/-- Event-source enum from `src/entities/event.entity.ts`. -/
inductive EventSource where
  | edgar
  | fred
  | gdelt
  | acled
  | polymarket
  | eia
deriving DecidableEq, Repr

/-- The `Event` entity (`src/entities/event.entity.ts`).  The nullable
decimal `value` column is an `Option ℚ`; the driver returns decimals as
strings, so a stored value (even "0") is truthy in the service code. -/
structure Event where
  id : Nat
  timestamp : Nat
  source : EventSource
  eventType : String
  entity : Option String
  value : Option ℚ
  sentiment : Option ℚ
  ingestedAt : Nat
deriving DecidableEq, Repr

/-- The `Relationship` entity (`src/entities/relationship.entity.ts`). -/
structure Relationship where
  id : Nat
  eventType : String
  marketAsset : String
  hitRate : ℚ
  edge : ℚ
  pValue : ℚ
  sampleSize : Nat
  description : Option String
  isSignificant : Bool
  discoveredAt : Nat
  validatedAt : Nat
deriving DecidableEq, Repr

/-- Payloads pushed through `EventEmitter2` (`src/common/events.ts`),
restricted to the emissions of the services modelled here. -/
inductive Emitted where
  | hypothesisCreated (hypothesisId : Nat) (eventType marketAsset : String)
  | analysisRequested (hypothesisId : Nat) (eventType marketAsset : String)
      (testType : TestType)
  | hypothesisTested (hypothesisId : Nat) (status : String)
      (pValue hitRate : Option ℚ)
  | relationshipDiscovered (relationshipId : Nat)
      (eventType marketAsset : String) (pValue hitRate : ℚ)
deriving DecidableEq, Repr

/-- Recognizes a RELATIONSHIP_DISCOVERED payload. -/
def Emitted.isDiscovery : Emitted → Bool
  | .relationshipDiscovered _ _ _ _ _ => true
  | _ => false

namespace HypothesesService

/-- `this.hypothesesRepository.update(id, patch)`: apply the partial
update to every row whose primary key matches. -/
def updateWhere (store : List Hypothesis) (id : Nat)
    (patch : Hypothesis → Hypothesis) : List Hypothesis :=
  store.map fun h => if h.id = id then patch h else h

/-- `findOne(id)` from `hypotheses.service.ts`. -/
def findOne (store : List Hypothesis) (id : Nat) : Option Hypothesis :=
  store.find? fun h => h.id = id

/-- Comparison used by `order: createdAt ASC`. -/
def createdAtLE (a b : Hypothesis) : Prop :=
  a.createdAt ≤ b.createdAt

instance : DecidableRel createdAtLE := fun _ _ => Nat.decLe _ _

instance : IsTotal Hypothesis createdAtLE := ⟨fun _ _ => Nat.le_total _ _⟩

instance : IsTrans Hypothesis createdAtLE := ⟨fun _ _ _ => Nat.le_trans⟩

/-- `findPending()` from `hypotheses.service.ts`: rows whose status is
Pending, ordered by ascending `createdAt`. -/
def findPending (store : List Hypothesis) : List Hypothesis :=
  (store.filter fun h => decide (h.status = HypothesisStatus.pending)).insertionSort
    createdAtLE

/-- `queueForTesting(id)` from `hypotheses.service.ts`: look the row up,
and when present mark it Running and emit ANALYSIS_REQUESTED — there is
no check of the current status.  Returns the new store, the emissions and
the returned row. -/
def queueForTesting (store : List Hypothesis) (id : Nat) :
    List Hypothesis × List Emitted × Option Hypothesis :=
  match findOne store id with
  | none => (store, [], none)
  | some h =>
    let store' := updateWhere store id fun g =>
      { g with status := HypothesisStatus.running }
    (store',
      [Emitted.analysisRequested id h.eventType h.marketAsset h.testType],
      findOne store' id)

/-- The results body accepted by `updateResults`. -/
structure ResultsInput where
  pValue : ℚ
  hitRate : ℚ
  edge : ℚ
  sampleSize : Nat
  testResults : Option String
deriving DecidableEq, Repr

/-- `updateResults(id, results)` from `hypotheses.service.ts`: overwrite
the result columns of the matching row in place (TypeORM skips an
undefined `testResults`), stamp `testedAt`, and emit HYPOTHESIS_TESTED. -/
def updateResults (store : List Hypothesis) (id : Nat) (r : ResultsInput)
    (now : Nat) : List Hypothesis × List Emitted × Option Hypothesis :=
  let store' := updateWhere store id fun g =>
    { g with
      status := HypothesisStatus.completed
      pValue := some r.pValue
      hitRate := some r.hitRate
      edge := some r.edge
      sampleSize := some r.sampleSize
      testResults := r.testResults.elim g.testResults some
      testedAt := now }
  (store',
    [Emitted.hypothesisTested id "completed" (some r.pValue) (some r.hitRate)],
    findOne store' id)

/-- `markFailed(id, errorMessage)` from `hypotheses.service.ts`: set the
status to Failed, record the message verbatim, stamp `testedAt`, and emit
HYPOTHESIS_TESTED with status "failed". -/
def markFailed (store : List Hypothesis) (id : Nat) (errorMessage : String)
    (now : Nat) : List Hypothesis × List Emitted × Option Hypothesis :=
  let store' := updateWhere store id fun g =>
    { g with
      status := HypothesisStatus.failed
      errorMessage := some errorMessage
      testedAt := now }
  (store',
    [Emitted.hypothesisTested id "failed" none none],
    findOne store' id)

end HypothesesService

namespace RelationshipsService

/-- `create(data)` from the relationships service: save the record and
emit RELATIONSHIP_DISCOVERED with the saved stats. -/
def create (store : List Relationship) (data : Relationship) :
    List Relationship × List Emitted :=
  (store ++ [data],
    [Emitted.relationshipDiscovered data.id data.eventType data.marketAsset
      data.pValue data.hitRate])

end RelationshipsService

namespace EventsService

/-- Comparison used by `order: timestamp ASC` on events. -/
def timestampLE (a b : Event) : Prop :=
  a.timestamp ≤ b.timestamp

instance : DecidableRel timestampLE := fun _ _ => Nat.decLe _ _

instance : IsTotal Event timestampLE := ⟨fun _ _ => Nat.le_total _ _⟩

instance : IsTrans Event timestampLE := ⟨fun _ _ _ => Nat.le_trans⟩

/-- One point of the series returned by `getEventTimeSeries`. -/
structure SeriesPoint where
  timestamp : Nat
  value : ℚ
  entity : Option String
deriving DecidableEq, Repr

/-- `getEventTimeSeries(source, eventType, startDate, endDate)` from the
events service: fetch all events of the source and type ordered by
ascending timestamp, keep those inside the inclusive date range, and map
each to `(timestamp, value, entity)` where a stored decimal `value`
(surfaced as a truthy string by the driver) is converted with `Number`
and an absent one becomes `1`. -/
def getEventTimeSeries (store : List Event) (source : EventSource)
    (eventType : String) (startDate endDate : Nat) : List SeriesPoint :=
  let found :=
    (store.filter fun e =>
      decide (e.source = source) && decide (e.eventType = eventType)).insertionSort
      timestampLE
  (found.filter fun e =>
      decide (startDate ≤ e.timestamp) && decide (e.timestamp ≤ endDate)).map
    fun e => ⟨e.timestamp, e.value.elim 1 id, e.entity⟩

end EventsService

namespace MarketDataService

/-- One point of the price series fed to `getReturns`
(`getPriceTimeSeries` output: timestamp and close-or-price). -/
structure PricePoint where
  timestamp : Nat
  price : ℚ
deriving DecidableEq, Repr

/-- One simple return produced by `getReturns`; the source field is
called `return`, a reserved word here. -/
structure ReturnPoint where
  timestamp : Nat
  ret : ℚ
deriving DecidableEq, Repr

/-- `getReturns` from `market-data.service.ts`: walk consecutive price
pairs; when the earlier price is strictly positive emit the simple return
`(curr - prev) / prev` tagged with the later timestamp, otherwise skip
the pair. -/
def getReturns : List PricePoint → List ReturnPoint
  | p0 :: p1 :: rest =>
    if 0 < p0.price then
      ⟨p1.timestamp, (p1.price - p0.price) / p0.price⟩ :: getReturns (p1 :: rest)
    else
      getReturns (p1 :: rest)
  | _ => []

end MarketDataService

namespace BaseIngestionService

/-- The body of `fetchWithRetry`'s `for` loop in
`src/ingestion/base.service.ts`, with `fn()`'s behaviour on its k-th
invocation given by `outcomes k` and every `sleep` collected into a
list of delays.  `fuel` is the number of loop iterations still allowed
(`retries - i`); falling out of the loop corresponds to the dead
`throw new Error('Should not reach here')` and is modelled as `none`. -/
def retryGo (outcomes : Nat → Except String α) (retries delay : Nat) :
    Nat → Nat → List Nat → Option (Except String α × List Nat)
  | _, 0, _ => none
  | i, fuel + 1, sleeps =>
    match outcomes i with
    | Except.ok v => some (Except.ok v, sleeps)
    | Except.error e =>
      if i < retries - 1 then
        retryGo outcomes retries delay (i + 1) fuel (sleeps ++ [delay * 2 ^ i])
      else
        some (Except.error e, sleeps)

/-- `fetchWithRetry(fn, retries = 3, delay = 1000)` from
`src/ingestion/base.service.ts`: run the loop from attempt 0 with no
sleeps performed yet. -/
def fetchWithRetry (outcomes : Nat → Except String α) (retries delay : Nat) :
    Option (Except String α × List Nat) :=
  retryGo outcomes retries delay 0 retries []

end BaseIngestionService

/-- Output record of the Multiple-Testing Corrector. -/
structure CorrectionResult where
  adjustedPValue : ℚ
  isSignificant : Bool
deriving DecidableEq, Repr

/-- Modelled from the spec: the Multiple-Testing Corrector
`correct(pValue, populationSize, familyWiseAlpha=0.05)` of §4.3 lives in
the Python analysis worker (`analysis/stats.py`, "Bonferroni
correction"), which is not among the TypeScript sources; faithful to the
spec's contract: `adjustedPValue = min(1, pValue * populationSize)` and
`isSignificant = adjustedPValue < familyWiseAlpha`. -/
def correct (pValue : ℚ) (populationSize : Nat) (familyWiseAlpha : ℚ) :
    CorrectionResult :=
  let adjusted := min 1 (pValue * populationSize)
  ⟨adjusted, decide (adjusted < familyWiseAlpha)⟩

/-- A Verdict as bound to one completed evaluation run: the raw and
test-level outputs plus the post-correction significance flag. -/
structure Verdict where
  pValue : ℚ
  hitRate : ℚ
  edge : ℚ
  sampleSize : Nat
  isSignificant : Bool
deriving DecidableEq, Repr

/-- Modelled from the spec: the evaluation-completion side effect of
§4.4, carried out by the Python analysis worker (`analysis/worker.py`,
"Creates relationships for significant findings"), which is not among
the TypeScript sources.  A Completed evaluation always updates the
Hypothesis record via `updateResults`; when its Verdict is significant
it additionally creates a Relationship through
`RelationshipsService.create` (which emits the completion signal
RELATIONSHIP_DISCOVERED); a non-significant one creates nothing and
emits no discovery signal. -/
def completeEvaluation (hyps : List Hypothesis) (rels : List Relationship)
    (id : Nat) (v : Verdict) (now freshRelId : Nat) :
    List Hypothesis × List Relationship × List Emitted :=
  let u := HypothesesService.updateResults hyps id
    ⟨v.pValue, v.hitRate, v.edge, v.sampleSize, none⟩ now
  if v.isSignificant then
    match HypothesesService.findOne hyps id with
    | some h =>
      let c := RelationshipsService.create rels
        ⟨freshRelId, h.eventType, h.marketAsset, v.hitRate, v.edge, v.pValue,
          v.sampleSize, none, true, now, now⟩
      (u.1, c.1, u.2.1 ++ c.2)
    | none => (u.1, rels, u.2.1)
  else
    (u.1, rels, u.2.1)

/-! Concrete records used to evaluate the services on closed inputs. -/

/-- A hypothesis already in the Running state (fixture for evaluating
`queueForTesting` on a second attempt). -/
def runningHyp : Hypothesis :=
  { id := 1
    hypothesis := "VIX spikes above 25 predict increased equity volatility"
    nullHypothesis := "VIX level has no predictive value for future volatility"
    eventType := "vix_spike"
    marketAsset := "SPY"
    testType := TestType.grangerCausality
    lookbackDays := 365
    status := HypothesisStatus.running
    pValue := none
    hitRate := none
    edge := none
    sampleSize := none
    testResults := none
    errorMessage := none
    aiGenerated := false
    createdAt := 3
    testedAt := 3 }

/-- A hypothesis with a recorded result (fixture for re-evaluating
through `updateResults`). -/
def completedHyp : Hypothesis :=
  { id := 2
    hypothesis := "Insider buying clusters predict stock outperformance"
    nullHypothesis := "Insider buying has no predictive value for future returns"
    eventType := "insider_buy"
    marketAsset := "equity_sector"
    testType := TestType.eventStudy
    lookbackDays := 365
    status := HypothesisStatus.completed
    pValue := some (1 / 100)
    hitRate := some (7 / 10)
    edge := some 12
    sampleSize := some 40
    testResults := none
    errorMessage := none
    aiGenerated := false
    createdAt := 2
    testedAt := 50 }

/-- A hypothesis mid-run (fixture for `markFailed`). -/
def failingHyp : Hypothesis :=
  { id := 7
    hypothesis := "Geopolitical conflict events predict oil price volatility"
    nullHypothesis := "Conflict events have no effect on oil price volatility"
    eventType := "conflict"
    marketAsset := "WTI"
    testType := TestType.eventStudy
    lookbackDays := 365
    status := HypothesisStatus.running
    pValue := none
    hitRate := none
    edge := none
    sampleSize := none
    testResults := none
    errorMessage := none
    aiGenerated := false
    createdAt := 5
    testedAt := 5 }

/-- The second batch of results sent to `updateResults` for the fixture
hypothesis, differing from the recorded ones. -/
def newerResults : HypothesesService.ResultsInput :=
  { pValue := 1 / 5
    hitRate := 11 / 20
    edge := 3
    sampleSize := 55
    testResults := none }

/-- C1: for every pValue in [0,1] and every (nonempty, since the count
includes the hypothesis under evaluation) population size, `correct`
returns `adjustedPValue = min 1 (pValue * populationSize)`,
`isSignificant` holds exactly when the adjusted p-value is below the
family-wise alpha 0.05, the adjusted p-value never drops below the raw
one, and it saturates at 1 as soon as `pValue * populationSize ≥ 1`. -/
theorem C1_correct_contract (p : ℚ) (n : Nat) (hp0 : 0 ≤ p) (hp1 : p ≤ 1)
    (hn : 1 ≤ n) :
    (correct p n (1 / 20)).adjustedPValue = min 1 (p * n) ∧
    ((correct p n (1 / 20)).isSignificant = true ↔
      (correct p n (1 / 20)).adjustedPValue < 1 / 20) ∧
    p ≤ (correct p n (1 / 20)).adjustedPValue ∧
    (1 ≤ p * n → (correct p n (1 / 20)).adjustedPValue = 1) := by
  refine ⟨rfl, by simp [correct], ?_, fun hq => ?_⟩
  · have hcast : (1 : ℚ) ≤ (n : ℚ) := by exact_mod_cast hn
    have hpn : p ≤ p * n := by
      calc p = p * 1 := by ring
        _ ≤ p * n := mul_le_mul_of_nonneg_left hcast hp0
    exact le_min hp1 hpn
  · simp [correct, min_eq_left hq]

/-- Witness for C1 at pValue 1/100, populationSize 3. -/
theorem C1_correct_contract_witness :
    (correct (1 / 100) 3 (1 / 20)).adjustedPValue =
      min 1 ((1 / 100 : ℚ) * (3 : Nat)) ∧
    ((correct (1 / 100) 3 (1 / 20)).isSignificant = true ↔
      (correct (1 / 100) 3 (1 / 20)).adjustedPValue < 1 / 20) ∧
    (1 / 100 : ℚ) ≤ (correct (1 / 100) 3 (1 / 20)).adjustedPValue ∧
    (1 ≤ (1 / 100 : ℚ) * (3 : Nat) →
      (correct (1 / 100) 3 (1 / 20)).adjustedPValue = 1) :=
  C1_correct_contract (1 / 100) 3 (by norm_num) (by norm_num) (by norm_num)

/-- C5: with a fixed nonnegative pValue, the Bonferroni-adjusted p-value
is monotone in the population size. -/
theorem C5_correction_monotone (p alpha : ℚ) (n1 n2 : Nat) (hp : 0 ≤ p)
    (h : n1 ≤ n2) :
    (correct p n1 alpha).adjustedPValue ≤ (correct p n2 alpha).adjustedPValue := by
  have hcast : (n1 : ℚ) ≤ (n2 : ℚ) := by exact_mod_cast h
  exact min_le_min le_rfl (mul_le_mul_of_nonneg_left hcast hp)

/-- Witness for C5 at pValue 1/100, population sizes 2 and 5. -/
theorem C5_correction_monotone_witness :
    (correct (1 / 100) 2 (1 / 20)).adjustedPValue ≤
      (correct (1 / 100) 5 (1 / 20)).adjustedPValue :=
  C5_correction_monotone (1 / 100) (1 / 20) 2 5 (by norm_num) (by norm_num)

/-- C3: evaluation of `queueForTesting` at the failing input — a
hypothesis already Running.  The second attempt is not rejected: the
service emits another ANALYSIS_REQUESTED for the same id (and re-marks
the row Running), so a second evaluation is started. -/
theorem C3_second_attempt_not_rejected :
    runningHyp.status = HypothesisStatus.running ∧
    (HypothesesService.queueForTesting [runningHyp] 1).2.1 =
      [Emitted.analysisRequested 1 "vix_spike" "SPY" TestType.grangerCausality] ∧
    (HypothesesService.queueForTesting [runningHyp] 1).1 = [runningHyp] := by
  exact ⟨rfl, rfl, rfl⟩

/-- C4 counterexample: re-evaluating the fixture hypothesis through
`updateResults` leaves the store at one record (no new result record is
created) and the previously written pValue 1/100 survives nowhere — the
fields are overwritten with the new results, refuting the claim that a
re-evaluation creates a new record and leaves the old fields unchanged. -/
theorem C4_verdict_overwritten_counterexample :
    completedHyp.pValue = some (1 / 100) ∧
    (HypothesesService.updateResults [completedHyp] 2 newerResults 90).1.length = 1 ∧
    ¬ (∃ g ∈ (HypothesesService.updateResults [completedHyp] 2 newerResults 90).1,
        g.pValue = some (1 / 100)) ∧
    (HypothesesService.updateResults [completedHyp] 2 newerResults 90).1.map
        Hypothesis.pValue = [some (1 / 5)] := by
  refine ⟨rfl, rfl, ?_, rfl⟩
  intro hex
  obtain ⟨g, hg, hp⟩ := hex
  have hmap : g.pValue ∈ (HypothesesService.updateResults [completedHyp] 2
      newerResults 90).1.map Hypothesis.pValue := List.mem_map_of_mem _ hg
  rw [show (HypothesesService.updateResults [completedHyp] 2 newerResults
      90).1.map Hypothesis.pValue = [some (1 / 5)] from rfl,
    List.mem_singleton] at hmap
  rw [hmap] at hp
  simp only [Option.some.injEq] at hp
  norm_num at hp

/-- C4 (amended): a later re-evaluation does not create a new record —
`updateResults` overwrites the result fields of the matching Hypothesis
row in place, leaving the store length unchanged and replacing pValue,
hitRate, edge, sampleSize and testedAt with the new run's values. -/
theorem C4_updateResults_overwrites_in_place (store : List Hypothesis)
    (id : Nat) (r1 r2 : HypothesesService.ResultsInput) (t1 t2 : Nat) :
    ((HypothesesService.updateResults
        (HypothesesService.updateResults store id r1 t1).1 id r2 t2).1.length =
      store.length) ∧
    (∀ g ∈ (HypothesesService.updateResults
        (HypothesesService.updateResults store id r1 t1).1 id r2 t2).1,
      g.id = id →
        g.status = HypothesisStatus.completed ∧ g.pValue = some r2.pValue ∧
        g.hitRate = some r2.hitRate ∧ g.edge = some r2.edge ∧
        g.sampleSize = some r2.sampleSize ∧ g.testedAt = t2) := by
  constructor
  · simp [HypothesesService.updateResults, HypothesesService.updateWhere]
  · intro g hg hgid
    simp only [HypothesesService.updateResults, HypothesesService.updateWhere,
      List.mem_map] at hg
    obtain ⟨b, hb, rfl⟩ := hg
    obtain ⟨a, ha, rfl⟩ := hb
    by_cases hida : a.id = id
    · simp [hida]
    · simp only [if_neg hida] at hgid
      exact absurd hgid hida

/-- C6: `markFailed` records the failure on the hypothesis: every row
matching the id ends with status Failed and the error message stored
verbatim, the updated row is present in the store, and the failure is
surfaced (a HYPOTHESIS_TESTED "failed" payload is emitted), never
swallowed. -/
theorem C6_markFailed_records_verbatim (store : List Hypothesis) (id : Nat)
    (msg : String) (now : Nat) (h : Hypothesis) (hmem : h ∈ store)
    (hid : h.id = id) :
    (∀ g ∈ (HypothesesService.markFailed store id msg now).1, g.id = id →
      g.status = HypothesisStatus.failed ∧ g.errorMessage = some msg) ∧
    ({ h with
        status := HypothesisStatus.failed
        errorMessage := some msg
        testedAt := now } : Hypothesis) ∈
      (HypothesesService.markFailed store id msg now).1 ∧
    (HypothesesService.markFailed store id msg now).2.1 =
      [Emitted.hypothesisTested id "failed" none none] := by
  refine ⟨?_, ?_, rfl⟩
  · intro g hg hgid
    simp only [HypothesesService.markFailed, HypothesesService.updateWhere,
      List.mem_map] at hg
    obtain ⟨a, ha, rfl⟩ := hg
    by_cases hida : a.id = id
    · simp [hida]
    · simp only [if_neg hida] at hgid
      exact absurd hgid hida
  · simp only [HypothesesService.markFailed, HypothesesService.updateWhere,
      List.mem_map]
    exact ⟨h, hmem, by rw [if_pos hid]⟩

/-- Witness for C6: the fixture hypothesis of id 7 marked Failed with a
concrete message. -/
theorem C6_markFailed_records_verbatim_witness :
    (∀ g ∈ (HypothesesService.markFailed [failingHyp] 7
        "InsufficientDataError: only 4 samples survive alignment" 9).1,
      g.id = 7 →
        g.status = HypothesisStatus.failed ∧
        g.errorMessage =
          some "InsufficientDataError: only 4 samples survive alignment") ∧
    ({ failingHyp with
        status := HypothesisStatus.failed
        errorMessage :=
          some "InsufficientDataError: only 4 samples survive alignment"
        testedAt := 9 } : Hypothesis) ∈
      (HypothesesService.markFailed [failingHyp] 7
        "InsufficientDataError: only 4 samples survive alignment" 9).1 ∧
    (HypothesesService.markFailed [failingHyp] 7
        "InsufficientDataError: only 4 samples survive alignment" 9).2.1 =
      [Emitted.hypothesisTested 7 "failed" none none] :=
  C6_markFailed_records_verbatim [failingHyp] 7
    "InsufficientDataError: only 4 samples survive alignment" 9 failingHyp
    (List.mem_singleton.mpr rfl) rfl

/-- C8: `findPending` returns exactly the Pending hypotheses, ordered by
ascending creation time, so of any two returned hypotheses the
earlier-created one appears first. -/
theorem C8_findPending_fifo (store : List Hypothesis) :
    (∀ h ∈ HypothesesService.findPending store,
      h.status = HypothesisStatus.pending) ∧
    (∀ h ∈ store, h.status = HypothesisStatus.pending →
      h ∈ HypothesesService.findPending store) ∧
    List.Pairwise (fun a b => a.createdAt ≤ b.createdAt)
      (HypothesesService.findPending store) := by
  have hperm := List.perm_insertionSort HypothesesService.createdAtLE
    (store.filter fun h => decide (h.status = HypothesisStatus.pending))
  refine ⟨?_, ?_, ?_⟩
  · intro h hh
    have hmem : h ∈ store.filter
        fun g => decide (g.status = HypothesisStatus.pending) :=
      hperm.mem_iff.mp hh
    exact of_decide_eq_true (List.mem_filter.mp hmem).2
  · intro h hh hstat
    exact hperm.mem_iff.mpr (List.mem_filter.mpr ⟨hh, decide_eq_true hstat⟩)
  · have hs : List.Sorted HypothesesService.createdAtLE
        (HypothesesService.findPending store) :=
      List.sorted_insertionSort _ _
    exact hs.imp fun hab => hab

/-- C9: `getReturns` emits exactly one simple return
`(curr - prev) / prev`, tagged with the later timestamp, for each
consecutive pair whose earlier price is strictly positive, skips pairs
whose earlier price is zero or negative (so it never divides by a
non-positive price), and its output is at most one shorter than the
input price series. -/
theorem C9_getReturns_safe (prices : List MarketDataService.PricePoint) :
    MarketDataService.getReturns prices =
      (prices.zip prices.tail).filterMap (fun q =>
        if 0 < q.1.price then
          some ⟨q.2.timestamp, (q.2.price - q.1.price) / q.1.price⟩
        else none) ∧
    (MarketDataService.getReturns prices).length ≤ prices.length - 1 := by
  have key : ∀ l : List MarketDataService.PricePoint,
      MarketDataService.getReturns l =
        (l.zip l.tail).filterMap (fun q =>
          if 0 < q.1.price then
            some ⟨q.2.timestamp, (q.2.price - q.1.price) / q.1.price⟩
          else none) := by
    intro l
    induction l with
    | nil => rfl
    | cons p rest ih =>
      cases rest with
      | nil => rfl
      | cons p1 rest' =>
        by_cases h : 0 < p.price
        · simp [MarketDataService.getReturns, h, ih]
        · simp [MarketDataService.getReturns, h, ih]
  refine ⟨key prices, ?_⟩
  rw [key prices]
  calc ((prices.zip prices.tail).filterMap _).length
      ≤ (prices.zip prices.tail).length := List.length_filterMap_le _ _
    _ ≤ prices.tail.length := by rw [List.length_zip]; exact min_le_right _ _
    _ = prices.length - 1 := List.length_tail _

/-- C10: every point returned by `getEventTimeSeries` lies inside the
inclusive `[startDate, endDate]` window, the points are in ascending
timestamp order, and each point comes from a stored event of the given
source and type, carrying the event's numeric value when present and 1
when the event has no value. -/
theorem C10_getEventTimeSeries_window (store : List Event)
    (source : EventSource) (eventType : String) (startDate endDate : Nat) :
    (∀ q ∈ EventsService.getEventTimeSeries store source eventType startDate
        endDate, startDate ≤ q.timestamp ∧ q.timestamp ≤ endDate) ∧
    List.Pairwise (fun a b => a.timestamp ≤ b.timestamp)
      (EventsService.getEventTimeSeries store source eventType startDate
        endDate) ∧
    (∀ q ∈ EventsService.getEventTimeSeries store source eventType startDate
        endDate, ∃ e ∈ store, e.source = source ∧ e.eventType = eventType ∧
        q.timestamp = e.timestamp ∧ q.entity = e.entity ∧
        q.value = e.value.getD 1) := by
  refine ⟨?_, ?_, ?_⟩
  · intro q hq
    simp only [EventsService.getEventTimeSeries, List.mem_map] at hq
    obtain ⟨e, he, rfl⟩ := hq
    have hp := List.of_mem_filter he
    simp only [Bool.and_eq_true, decide_eq_true_eq] at hp
    exact hp
  · have hsorted : List.Pairwise EventsService.timestampLE
        ((store.filter fun e =>
          decide (e.source = source) && decide (e.eventType = eventType)).insertionSort
          EventsService.timestampLE) :=
      List.sorted_insertionSort _ _
    have hfilter := hsorted.filter
      (fun e => decide (startDate ≤ e.timestamp) && decide (e.timestamp ≤ endDate))
    exact List.pairwise_map.mpr hfilter
  · intro q hq
    simp only [EventsService.getEventTimeSeries, List.mem_map] at hq
    obtain ⟨e, he, rfl⟩ := hq
    have hfound : e ∈ (store.filter fun e =>
        decide (e.source = source) && decide (e.eventType = eventType)).insertionSort
        EventsService.timestampLE := List.mem_of_mem_filter he
    have hstorefilter : e ∈ store.filter fun e =>
        decide (e.source = source) && decide (e.eventType = eventType) :=
      (List.perm_insertionSort EventsService.timestampLE _).mem_iff.mp hfound
    have hp := List.of_mem_filter hstorefilter
    simp only [Bool.and_eq_true, decide_eq_true_eq] at hp
    refine ⟨e, List.mem_of_mem_filter hstorefilter, hp.1, hp.2, rfl, rfl, ?_⟩
    cases e.value <;> rfl

/-- Helper: the first component of `completeEvaluation` is always the
store produced by `updateResults`, whatever the verdict. -/
theorem completeEvaluation_fst (hyps : List Hypothesis)
    (rels : List Relationship) (id : Nat) (v : Verdict) (now fresh : Nat) :
    (completeEvaluation hyps rels id v now fresh).1 =
      (HypothesesService.updateResults hyps id
        ⟨v.pValue, v.hitRate, v.edge, v.sampleSize, none⟩ now).1 := by
  unfold completeEvaluation
  cases v.isSignificant
  · rfl
  · cases HypothesesService.findOne hyps id <;> rfl

/-- Helper: after `updateResults`, every row matching the id carries the
new run's status and pValue. -/
theorem updateResults_fields (store : List Hypothesis) (id : Nat)
    (r : HypothesesService.ResultsInput) (now : Nat) :
    ∀ g ∈ (HypothesesService.updateResults store id r now).1, g.id = id →
      g.status = HypothesisStatus.completed ∧ g.pValue = some r.pValue := by
  intro g hg hgid
  simp only [HypothesesService.updateResults, HypothesesService.updateWhere,
    List.mem_map] at hg
  obtain ⟨a, _, rfl⟩ := hg
  by_cases hida : a.id = id
  · simp [hida]
  · simp only [if_neg hida] at hgid
    exact absurd hgid hida

/-- A significant verdict used to exercise `completeEvaluation`. -/
def sigVerdict : Verdict :=
  { pValue := 1 / 1000
    hitRate := 4 / 5
    edge := 25
    sampleSize := 30
    isSignificant := true }

/-- C2: a completed evaluation always updates the Hypothesis record, and
creates a Relationship (with the RELATIONSHIP_DISCOVERED completion
signal) exactly when its Verdict is significant — a non-significant
verdict adds no Relationship and produces no discovery signal. -/
theorem C2_relationship_iff_significant (hyps : List Hypothesis)
    (rels : List Relationship) (id : Nat) (v : Verdict) (now fresh : Nat)
    (h : Hypothesis) (hmem : h ∈ hyps) (hid : h.id = id) :
    ((completeEvaluation hyps rels id v now fresh).2.1.length =
      rels.length + cond v.isSignificant 1 0) ∧
    (((completeEvaluation hyps rels id v now fresh).2.2.filter
        Emitted.isDiscovery).length = cond v.isSignificant 1 0) ∧
    (∀ g ∈ (completeEvaluation hyps rels id v now fresh).1, g.id = id →
      g.status = HypothesisStatus.completed ∧ g.pValue = some v.pValue) := by
  obtain ⟨h', hfind⟩ : ∃ h', HypothesesService.findOne hyps id = some h' := by
    cases hcase : HypothesesService.findOne hyps id with
    | some h' => exact ⟨h', rfl⟩
    | none =>
      exfalso
      have hnone := List.find?_eq_none.mp hcase h hmem
      simp [hid] at hnone
  refine ⟨?_, ?_, ?_⟩
  · cases hsig : v.isSignificant
    · simp [completeEvaluation, hsig]
    · simp [completeEvaluation, hsig, hfind, RelationshipsService.create]
  · cases hsig : v.isSignificant
    · simp [completeEvaluation, hsig, HypothesesService.updateResults,
        Emitted.isDiscovery]
    · simp [completeEvaluation, hsig, hfind, HypothesesService.updateResults,
        RelationshipsService.create, Emitted.isDiscovery]
  · intro g hg hgid
    rw [completeEvaluation_fst] at hg
    exact updateResults_fields hyps id _ now g hg hgid

/-- Witness for C2: the fixture Running hypothesis evaluated to a
significant verdict. -/
theorem C2_relationship_iff_significant_witness :
    ((completeEvaluation [runningHyp] [] 1 sigVerdict 100 1).2.1.length =
      List.length ([] : List Relationship) + cond sigVerdict.isSignificant 1 0) ∧
    (((completeEvaluation [runningHyp] [] 1 sigVerdict 100 1).2.2.filter
        Emitted.isDiscovery).length = cond sigVerdict.isSignificant 1 0) ∧
    (∀ g ∈ (completeEvaluation [runningHyp] [] 1 sigVerdict 100 1).1,
      g.id = 1 →
        g.status = HypothesisStatus.completed ∧
        g.pValue = some sigVerdict.pValue) :=
  C2_relationship_iff_significant [runningHyp] [] 1 sigVerdict 100 1 runningHyp
    (List.mem_singleton.mpr rfl) rfl

/-- Helper: running the retry loop from attempt `i` when the first
success is at attempt `j` yields that success, having slept
`delay * 2 ^ t` after each failed attempt `t` in `[i, j)`. -/
theorem retryGo_success {α : Type} (outcomes : Nat → Except String α)
    (retries delay j : Nat) (v : α) (hj : j < retries)
    (hok : outcomes j = Except.ok v)
    (herr : ∀ k, k < j → ∃ e, outcomes k = Except.error e) :
    ∀ fuel i sleeps, i + fuel = retries → i ≤ j →
      BaseIngestionService.retryGo outcomes retries delay i fuel sleeps =
        some (Except.ok v,
          sleeps ++ (List.range' i (j - i)).map fun t => delay * 2 ^ t) := by
  intro fuel
  induction fuel with
  | zero => intro i sleeps hif hij; omega
  | succ fuel ih =>
    intro i sleeps hif hij
    rcases eq_or_lt_of_le hij with rfl | hlt
    · simp [BaseIngestionService.retryGo, hok]
    · obtain ⟨e, he⟩ := herr i hlt
      have hi1 : i < retries - 1 := by omega
      have hstep : BaseIngestionService.retryGo outcomes retries delay i
          (fuel + 1) sleeps =
          BaseIngestionService.retryGo outcomes retries delay (i + 1) fuel
            (sleeps ++ [delay * 2 ^ i]) := by
        simp [BaseIngestionService.retryGo, he, hi1]
      rw [hstep, ih (i + 1) (sleeps ++ [delay * 2 ^ i]) (by omega) (by omega)]
      have hsplit : j - i = (j - (i + 1)) + 1 := by omega
      rw [hsplit, List.range'_succ]
      simp [List.append_assoc]

/-- Helper: running the retry loop from attempt `i` when every attempt
fails yields the last attempt's error, having slept after every attempt
but the last. -/
theorem retryGo_allfail {α : Type} (outcomes : Nat → Except String α)
    (retries delay : Nat) (es : Nat → String)
    (herr : ∀ k, k < retries → outcomes k = Except.error (es k)) :
    ∀ fuel i sleeps, i + fuel = retries → i < retries →
      BaseIngestionService.retryGo outcomes retries delay i fuel sleeps =
        some (Except.error (es (retries - 1)),
          sleeps ++ (List.range' i (retries - 1 - i)).map
            fun t => delay * 2 ^ t) := by
  intro fuel
  induction fuel with
  | zero => intro i sleeps hif hi; omega
  | succ fuel ih =>
    intro i sleeps hif hi
    by_cases hlast : i < retries - 1
    · have he := herr i hi
      have hstep : BaseIngestionService.retryGo outcomes retries delay i
          (fuel + 1) sleeps =
          BaseIngestionService.retryGo outcomes retries delay (i + 1) fuel
            (sleeps ++ [delay * 2 ^ i]) := by
        simp [BaseIngestionService.retryGo, he, hlast]
      rw [hstep, ih (i + 1) (sleeps ++ [delay * 2 ^ i]) (by omega) (by omega)]
      have hsplit : retries - 1 - i = (retries - 1 - (i + 1)) + 1 := by omega
      rw [hsplit, List.range'_succ]
      simp [List.append_assoc]
    · have hieq : i = retries - 1 := by omega
      subst hieq
      have he := herr (retries - 1) hi
      simp [BaseIngestionService.retryGo, he, hlast]

/-- C7: `fetchWithRetry` returns the first successful attempt's value,
sleeping `delay * 2 ^ i` (exponential backoff on the base delay) after
each failed attempt `i`, and when every one of the `retries` attempts
fails it propagates the final attempt's error to the caller instead of
swallowing it. -/
theorem C7_fetchWithRetry_contract {α : Type}
    (outcomes : Nat → Except String α) (retries delay : Nat)
    (hr : 1 ≤ retries) :
    (∀ j v, j < retries → outcomes j = Except.ok v →
      (∀ k, k < j → ∃ e, outcomes k = Except.error e) →
      BaseIngestionService.fetchWithRetry outcomes retries delay =
        some (Except.ok v, (List.range j).map fun t => delay * 2 ^ t)) ∧
    (∀ es : Nat → String,
      (∀ k, k < retries → outcomes k = Except.error (es k)) →
      BaseIngestionService.fetchWithRetry outcomes retries delay =
        some (Except.error (es (retries - 1)),
          (List.range (retries - 1)).map fun t => delay * 2 ^ t)) := by
  constructor
  · intro j v hj hok herr
    have hwalk := retryGo_success outcomes retries delay j v hj hok herr
      retries 0 [] (by omega) (by omega)
    simpa [BaseIngestionService.fetchWithRetry, List.range_eq_range']
      using hwalk
  · intro es herr
    have hwalk := retryGo_allfail outcomes retries delay es herr
      retries 0 [] (by omega) (by omega)
    simpa [BaseIngestionService.fetchWithRetry, List.range_eq_range']
      using hwalk

/-- Attempt behaviour succeeding on the second try (witness input). -/
def w7ok : Nat → Except String Nat :=
  fun k => if k = 1 then Except.ok 42 else Except.error "timeout"

/-- Attempt behaviour failing every try (witness input). -/
def w7err : Nat → Except String Nat :=
  fun _ => Except.error "down"

/-- Witness for C7: with the default 3 retries and base delay 1000, a
second-try success returns after one 1000ms sleep, and a permanent
failure propagates the last error after 1000ms and 2000ms sleeps. -/
theorem C7_fetchWithRetry_contract_witness :
    BaseIngestionService.fetchWithRetry w7ok 3 1000 =
      some (Except.ok 42, [1000]) ∧
    BaseIngestionService.fetchWithRetry w7err 3 1000 =
      some (Except.error "down", [1000, 2000]) := by
  constructor
  · have h := (C7_fetchWithRetry_contract w7ok 3 1000 (by omega)).1 1 42
      (by omega) rfl (fun k hk => ⟨"timeout", by
        have hk0 : k = 0 := by omega
        subst hk0
        rfl⟩)
    simpa using h
  · have h := (C7_fetchWithRetry_contract w7err 3 1000 (by omega)).2
      (fun _ => "down") (fun _ _ => rfl)
    simpa using h

end Skynet
